import Mathlib

/-
Verification development for the RVC-android native core.

Shallow embedding of:
  - app/src/main/cpp/dsp/fx_graph.cpp      (DSP stages and the FXGraph post-processing branch)
  - app/src/main/cpp/security/lock_manager.cpp  (degradation state machine)
  - app/src/main/cpp/inference/ie_manager.cpp   (model loading, delegate selection, inference)

Sample values are modelled by `FVal`: either NaN or an exact rational.
C++ float comparisons (`<`, `std::min`, `std::max`, `std::abs`) are embedded
with IEEE semantics on NaN (every ordered comparison involving NaN is false);
arithmetic is exact rational arithmetic with NaN propagation.
-/

namespace Rvc

/-- A mono audio sample as stored in the shared float buffer: NaN or a value
(rounding is not modelled; arithmetic is exact, NaN propagates). -/
inductive FVal
  | nan
  | val (q : ℚ)
deriving DecidableEq

/-- C++ `<` on floats: false whenever either operand is NaN. -/
def fLt : FVal → FVal → Bool
  | .val a, .val b => decide (a < b)
  | _, _ => false

/-- C++ `std::min(a, b)` = `(b < a) ? b : a`. -/
def cppMin (a b : FVal) : FVal := if fLt b a then b else a

/-- C++ `std::max(a, b)` = `(a < b) ? b : a`. -/
def cppMax (a b : FVal) : FVal := if fLt a b then b else a

/-- C++ `std::abs` on floats; `abs NaN = NaN`. -/
def cppAbs : FVal → FVal
  | .nan => .nan
  | .val q => .val |q|

/-- Float multiplication: NaN propagates, otherwise exact. -/
def fMul : FVal → FVal → FVal
  | .val a, .val b => .val (a * b)
  | _, _ => .nan

/-- Float addition: NaN propagates, otherwise exact. -/
def fAdd : FVal → FVal → FVal
  | .val a, .val b => .val (a + b)
  | _, _ => .nan

/- ------------------------------------------------------------------
   dsp/fx_graph.cpp — the four DSP stages
   ------------------------------------------------------------------ -/

/-- The gate threshold `0.005f` of `AcousticEchoCanceller::process`
(fx_graph.cpp:22), as the normalised rational 1/200. -/
def aecThreshold : ℚ := ⟨1, 200, by decide, by decide⟩

/-- `aecThreshold` is 0.005. -/
lemma aecThreshold_eq : aecThreshold = 5 / 1000 := by
  norm_num [aecThreshold, Rat.mk'_eq_divInt, Rat.divInt_eq_div]

/-- The limiter bound `0.99f` of `MultibandCompressor::process`
(fx_graph.cpp:47), as the normalised rational 99/100. -/
def compLimit : ℚ := ⟨99, 100, by decide, by decide⟩

/-- `compLimit` is 0.99. -/
lemma compLimit_eq : compLimit = 99 / 100 := by
  norm_num [compLimit, Rat.mk'_eq_divInt, Rat.divInt_eq_div]

/-- The smoothing coefficient `0.95f` of `NoiseSuppressor::process`
(fx_graph.cpp:38), as the normalised rational 19/20. -/
def nsAlpha : ℚ := ⟨19, 20, by decide, by decide⟩

/-- `nsAlpha` is 0.95. -/
lemma nsAlpha_eq : nsAlpha = 95 / 100 := by
  norm_num [nsAlpha, Rat.mk'_eq_divInt, Rat.divInt_eq_div]

/-- The coefficient `0.05f` of `NoiseSuppressor::process` (fx_graph.cpp:38),
as the normalised rational 1/20. -/
def nsBeta : ℚ := ⟨1, 20, by decide, by decide⟩

/-- `nsBeta` is 0.05, which is `1 - nsAlpha`. -/
lemma nsBeta_eq : nsBeta = 5 / 100 := by
  norm_num [nsBeta, Rat.mk'_eq_divInt, Rat.divInt_eq_div]

/-- The per-sample body of `AcousticEchoCanceller::process` (fx_graph.cpp:23-27):
`if (std::abs(buffer[i]) < threshold) buffer[i] = 0.0f;` with `threshold = 0.005f`. -/
def aecSample (x : FVal) : FVal :=
  if fLt (cppAbs x) (.val aecThreshold) then .val 0 else x

/-- `AcousticEchoCanceller::process` (fx_graph.cpp:18-28): noise gate applied
to every sample independently. -/
def AcousticEchoCanceller.process (buffer : List FVal) : List FVal :=
  buffer.map aecSample

/-- One step of the `NoiseSuppressor` loop body (fx_graph.cpp:38):
`buffer[i] = buffer[i] * 0.95f + buffer[i-1] * 0.05f`, where `buffer[i-1]`
already holds the processed value because the loop works in place in
increasing index order. -/
def nsStep (prev x : FVal) : FVal :=
  fAdd (fMul x (.val nsAlpha)) (fMul prev (.val nsBeta))

/-- Tail of the in-place `NoiseSuppressor` loop: `prev` is the already
processed value at the preceding index. -/
def nsGo (prev : FVal) : List FVal → List FVal
  | [] => []
  | x :: xs => nsStep prev x :: nsGo (nsStep prev x) xs

/-- `NoiseSuppressor::process` (fx_graph.cpp:33-40): the loop starts at
`i = 1`, so index 0 is untouched and a buffer of length 0 or 1 is returned
unchanged. -/
def NoiseSuppressor.process : List FVal → List FVal
  | [] => []
  | x :: xs => x :: nsGo x xs

/-- The per-sample body of `MultibandCompressor::process` (fx_graph.cpp:49):
`buffer[i] = std::max(-limit, std::min(limit, buffer[i]))` with `limit = 0.99f`. -/
def clampSample (x : FVal) : FVal :=
  cppMax (.val (-compLimit)) (cppMin (.val compLimit) x)

/-- `MultibandCompressor::process` (fx_graph.cpp:45-51): hard peak limiter,
applied to every sample independently. -/
def MultibandCompressor.process (buffer : List FVal) : List FVal :=
  buffer.map clampSample

/-- Tail of the `PacketLossConcealer` fade loop (fx_graph.cpp:62-64):
`buffer[i] = buffer[i] * (1.0f - (float)i / numSamples)`; `n` is the fixed
total sample count, `i` the current index. -/
def plcGo (n : ℚ) (i : ℕ) : List FVal → List FVal
  | [] => []
  | x :: xs => fMul x (.val (1 - (i : ℚ) / n)) :: plcGo n (i + 1) xs

/-- `PacketLossConcealer::process` (fx_graph.cpp:56-66): the fade-out runs
only while the `isActive` flag is set; otherwise the call leaves the buffer
untouched. -/
def PacketLossConcealer.process (isActive : Bool) (buffer : List FVal) : List FVal :=
  if isActive then plcGo (buffer.length : ℚ) 0 buffer else buffer

/-- `FXGraph::applyPostProcessing` (fx_graph.cpp:107-125).
`plcActive` is the snapshot of `LockManager::isPLCActive()` read at the
branch; `plcState` is the concealer's `isActive` flag before the call.
Returns the concealer flag after the call and the output buffer:
the PLC branch first activates the concealer and runs only it, the other
branch deactivates the concealer and runs only the compressor. -/
def FXGraph.applyPostProcessing (isInitialized plcActive plcState : Bool)
    (buffer : List FVal) : Bool × List FVal :=
  if !isInitialized then (plcState, buffer)
  else if plcActive then (true, PacketLossConcealer.process true buffer)
  else (false, MultibandCompressor.process buffer)

/-- `FXGraph::applyAcousticPreprocessing` (fx_graph.cpp:92-102): echo gate
then noise suppressor, in that fixed order. -/
def FXGraph.applyAcousticPreprocessing (isInitialized : Bool)
    (buffer : List FVal) : List FVal :=
  if !isInitialized then buffer
  else NoiseSuppressor.process (AcousticEchoCanceller.process buffer)

/- ------------------------------------------------------------------
   security/lock_manager.cpp — degradation state machine
   ------------------------------------------------------------------ -/

/-- `RVCPrecision` (lock_manager.h:12-16). -/
inductive RVCPrecision
  | FP32
  | FP16
  | INT8
deriving DecidableEq

/-- The mutable state of `LockManager` (lock_manager.h:66-68):
`isDegradationActive_`, `isPLCActive_`, `currentRVCPrecision_`. -/
structure LockState where
  isDegradationActive : Bool
  isPLCActive : Bool
  currentRVCPrecision : RVCPrecision
deriving DecidableEq

/-- The `LockManager` constructor state (lock_manager.cpp:28-33). -/
def initLockState : LockState :=
  { isDegradationActive := false
    isPLCActive := false
    currentRVCPrecision := .FP32 }

/-- `LockManager::forceDegradation` (lock_manager.cpp:93-105): no-op when
already degraded, otherwise sets degradation, FP16 precision and PLC. -/
def LockManager.forceDegradation (s : LockState) : LockState :=
  if s.isDegradationActive then s
  else
    { isDegradationActive := true
      isPLCActive := true
      currentRVCPrecision := .FP16 }

/-- `LockManager::restorePerformance` (lock_manager.cpp:110-119): no-op when
not degraded, otherwise clears degradation, restores FP32, clears PLC. -/
def LockManager.restorePerformance (s : LockState) : LockState :=
  if !s.isDegradationActive then s
  else
    { isDegradationActive := false
      isPLCActive := false
      currentRVCPrecision := .FP32 }

/-- States of the stability controller reachable from the constructor state
by any sequence of `forceDegradation` / `restorePerformance` calls. -/
inductive ReachableLockState : LockState → Prop
  | init : ReachableLockState initLockState
  | degrade {s : LockState} :
      ReachableLockState s → ReachableLockState (LockManager.forceDegradation s)
  | restore {s : LockState} :
      ReachableLockState s → ReachableLockState (LockManager.restorePerformance s)

/- ------------------------------------------------------------------
   inference/ie_manager.cpp — model loading and delegate selection
   ------------------------------------------------------------------ -/

/-- `ModelType` as used by `determineModelType`. -/
inductive ModelType
  | TFLITE
  | ONNX
  | UNKNOWN
deriving DecidableEq

/-- `EngineType` as assigned in `loadModel`. -/
inductive EngineType
  | TFLITE
  | ONNX
deriving DecidableEq

/-- `DelegateType` as returned by `benchmarkAllDelegates`. -/
inductive DelegateType
  | DSP
  | GPU
  | CPU
deriving DecidableEq

/-- The path-suffix test used by `determineModelType` (ie_manager.cpp:172-176):
`path.length() >= k && path.substr(path.length() - k) == sfx`. -/
def hasSuffixStr (path sfx : String) : Prop :=
  sfx.data.length ≤ path.data.length ∧
    path.data.drop (path.data.length - sfx.data.length) = sfx.data

instance (path sfx : String) : Decidable (hasSuffixStr path sfx) := by
  unfold hasSuffixStr; infer_instance

/-- `InferenceEngineManager::determineModelType` (ie_manager.cpp:170-178). -/
def determineModelType (path : String) : ModelType :=
  if hasSuffixStr path ".tflite" then .TFLITE
  else if hasSuffixStr path ".onnx" then .ONNX
  else .UNKNOWN

/-- The delegate decision of `InferenceEngineManager::benchmarkAllDelegates`
(ie_manager.cpp:124-130), parameterised by the three measured latencies:
`if (dsp < gpu && dsp < cpu && dsp <= 20) DSP else if (gpu < cpu && gpu <= 20)
GPU else CPU`. -/
def selectDelegate (dspTime gpuTime cpuTime : ℚ) : DelegateType :=
  if dspTime < gpuTime ∧ dspTime < cpuTime ∧ dspTime ≤ 20 then .DSP
  else if gpuTime < cpuTime ∧ gpuTime ≤ 20 then .GPU
  else .CPU

/-- The DSP latency the TFLite stub benchmark reports (ie_manager.cpp:26-29). -/
def tfliteBenchmarkTime : ℚ := 15

/-- The GPU latency the ONNX stub benchmark reports (ie_manager.cpp:44-46). -/
def onnxBenchmarkTime : ℚ := 18

/-- The hard-coded CPU latency (ie_manager.cpp:120). -/
def cpuBenchmarkTime : ℚ := 25

/-- `InferenceEngineManager::benchmarkAllDelegates` (ie_manager.cpp:114-131)
as compiled: the stub measurements fed into the delegate decision. -/
def benchmarkAllDelegates : DelegateType :=
  selectDelegate tfliteBenchmarkTime onnxBenchmarkTime cpuBenchmarkTime

/-- The mutable state of `InferenceEngineManager`:
`isModelLoaded_`, `currentModelPath_`, `currentEngine_`, `currentDelegate_`
(`none` models the not-yet-assigned members before the first load). -/
structure EngineState where
  isModelLoaded : Bool
  currentModelPath : String
  currentEngine : Option EngineType
  currentDelegate : Option DelegateType
deriving DecidableEq

/-- `InferenceEngineManager::unloadModel` (ie_manager.cpp:163-168): clears the
loaded flag and the stored path. -/
def unloadModel (s : EngineState) : EngineState :=
  { s with isModelLoaded := false, currentModelPath := "" }

/-- `TFLiteEngine::loadModel` stub (ie_manager.cpp:20-25): always succeeds. -/
def tfliteLoadModel (_path : String) : Bool := true

/-- `ONNXEngine::loadModel` stub (ie_manager.cpp:38-43): always succeeds. -/
def onnxLoadModel (_path : String) : Bool := true

/-- `InferenceEngineManager::loadModel` (ie_manager.cpp:70-108), returning the
boolean result together with the state after the call. Control flow follows
the source: unload any current model, determine the format, overwrite
`currentModelPath_` and `currentDelegate_`, then attempt the backend load
(no backend is attempted for an unknown format, so `loadSuccess` stays
false there). -/
def loadModel (modelPath : String) (s : EngineState) : Bool × EngineState :=
  let s0 := if s.isModelLoaded then unloadModel s else s
  let type := determineModelType modelPath
  let s1 := { s0 with
    currentModelPath := modelPath
    currentDelegate := some benchmarkAllDelegates }
  match type with
  | .TFLITE =>
      let s2 := { s1 with currentEngine := some .TFLITE }
      if tfliteLoadModel modelPath then (true, { s2 with isModelLoaded := true })
      else (false, s2)
  | .ONNX =>
      let s2 := { s1 with currentEngine := some .ONNX }
      if onnxLoadModel modelPath then (true, { s2 with isModelLoaded := true })
      else (false, s2)
  | .UNKNOWN => (false, s1)

/-- `InferenceEngineManager::runInference` (ie_manager.cpp:136-161),
parameterised by the two backend transforms (their stub bodies are empty in
the source; keeping them abstract records that the guard alone decides
whether any backend code touches the buffer). Returns the buffer after the
call. -/
def runInference (tfliteRun onnxRun : List FVal → List FVal)
    (s : EngineState) (buffer : List FVal) : List FVal :=
  if !s.isModelLoaded then buffer
  else
    match s.currentEngine with
    | some .TFLITE => tfliteRun buffer
    | some .ONNX => onnxRun buffer
    | none => buffer

/-- The delegate-selection rule as the spec words it, for comparison with
`selectDelegate`: the delegate with the lowest measured latency among those
within the 20 ms ceiling, ties broken in DSP, GPU, CPU priority order, and
CPU when no delegate meets the ceiling. -/
def selectDelegateSpec (dspTime gpuTime cpuTime : ℚ) : DelegateType :=
  if dspTime ≤ 20 ∧ (gpuTime ≤ 20 → dspTime ≤ gpuTime) ∧
      (cpuTime ≤ 20 → dspTime ≤ cpuTime) then .DSP
  else if gpuTime ≤ 20 ∧ (cpuTime ≤ 20 → gpuTime ≤ cpuTime) then .GPU
  else .CPU

/-- The delegate-selection rule the code actually implements, written as a
selection rule: the delegate with the lowest measured latency among those
within the 20 ms ceiling, but with ties broken in the reverse priority order
(CPU over GPU over DSP — a delegate wins only when strictly faster than every
other delegate within the ceiling), and CPU when no delegate meets the
ceiling. -/
def selectDelegateTieToLast (dspTime gpuTime cpuTime : ℚ) : DelegateType :=
  if dspTime ≤ 20 ∧ (gpuTime ≤ 20 → dspTime < gpuTime) ∧
      (cpuTime ≤ 20 → dspTime < cpuTime) then .DSP
  else if gpuTime ≤ 20 ∧ (cpuTime ≤ 20 → gpuTime < cpuTime) then .GPU
  else .CPU

/-- A concrete engine state with a model loaded, as left by a successful
`loadModel("a.tflite", ...)` call. -/
def loadedEngineState : EngineState :=
  { isModelLoaded := true
    currentModelPath := "a.tflite"
    currentEngine := some .TFLITE
    currentDelegate := some .DSP }

/- ------------------------------------------------------------------
   Helper lemmas
   ------------------------------------------------------------------ -/

/-- `std::min` on two plain values is the rational minimum. -/
lemma cppMin_val (a b : ℚ) : cppMin (.val a) (.val b) = .val (min a b) := by
  by_cases h : b < a
  · simp [cppMin, fLt, h, min_eq_right h.le]
  · simp [cppMin, fLt, h, min_eq_left (not_lt.mp h)]

/-- `std::max` on two plain values is the rational maximum. -/
lemma cppMax_val (a b : ℚ) : cppMax (.val a) (.val b) = .val (max a b) := by
  by_cases h : a < b
  · simp [cppMax, fLt, h, max_eq_right h.le]
  · simp [cppMax, fLt, h, max_eq_left (not_lt.mp h)]

/-- Clamping a plain value computes the rational clamp to the clip band. -/
lemma clampSample_val (q : ℚ) :
    clampSample (.val q) = .val (max (-compLimit) (min compLimit q)) := by
  rw [clampSample, cppMin_val, cppMax_val]

/-- Clamping NaN yields the positive clip bound (IEEE comparison semantics:
`std::min(limit, NaN)` returns `limit`). -/
lemma clampSample_nan : clampSample FVal.nan = .val compLimit := by
  have h : (-compLimit : ℚ) < compLimit := by rw [compLimit_eq]; norm_num
  simp [clampSample, cppMin, cppMax, fLt, h]

/-- Every clamped sample is a plain value with magnitude at most 0.99. -/
lemma clampSample_bound (x : FVal) :
    ∃ q : ℚ, clampSample x = .val q ∧ |q| ≤ 99 / 100 := by
  cases x with
  | nan =>
      refine ⟨compLimit, clampSample_nan, ?_⟩
      rw [compLimit_eq, abs_le]
      constructor <;> norm_num
  | val q =>
      refine ⟨max (-compLimit) (min compLimit q), clampSample_val q, ?_⟩
      rw [compLimit_eq, abs_le]
      constructor
      · exact le_max_left _ _
      · exact max_le (by norm_num) (min_le_left _ _)

/-- A value already inside the clip band is a fixed point of clamping. -/
lemma clampSample_fixed (q : ℚ) (h1 : -(99 / 100) ≤ q) (h2 : q ≤ 99 / 100) :
    clampSample (.val q) = .val q := by
  rw [clampSample_val, compLimit_eq, min_eq_right h2, max_eq_right h1]

/-- Clamping is a per-sample fixed point. -/
lemma clampSample_idem (x : FVal) : clampSample (clampSample x) = clampSample x := by
  obtain ⟨q, hq, hb⟩ := clampSample_bound x
  rw [hq]
  rw [abs_le] at hb
  exact clampSample_fixed q hb.1 hb.2

/-- The suppressor loop preserves the sample count. -/
lemma nsGo_length (l : List FVal) : ∀ prev : FVal, (nsGo prev l).length = l.length := by
  induction l with
  | nil => intro prev; rfl
  | cons x xs ih => intro prev; simp [nsGo, ih]

/-- Inside the suppressor loop, the sample written at index `i + 1` is the
recurrence step applied to the sample already written at index `i` and the
input sample at index `i + 1`. -/
lemma nsGo_get?_succ (l : List FVal) :
    ∀ (prev : FVal) (i : ℕ) (y x : FVal),
      (nsGo prev l).get? i = some y → l.get? (i + 1) = some x →
      (nsGo prev l).get? (i + 1) = some (nsStep y x) := by
  induction l with
  | nil => intro prev i y x hy _; simp [nsGo] at hy
  | cons z zs ih =>
      intro prev i y x hy hx
      cases i with
      | zero =>
          simp only [nsGo, List.get?] at hy hx ⊢
          cases zs with
          | nil => simp at hx
          | cons w ws =>
              simp only [List.get?] at hx
              simp only [nsGo, List.get?]
              rw [Option.some_inj] at hy hx
              rw [← hy, ← hx]
      | succ j =>
          simp only [nsGo, List.get?] at hy hx ⊢
          exact ih (nsStep prev z) j y x hy hx

/-- Once the previous processed sample is NaN, every later sample the
suppressor loop writes is NaN. -/
lemma nsGo_nan_prev (l : List FVal) :
    ∀ j : ℕ, j < l.length → (nsGo FVal.nan l).get? j = some FVal.nan := by
  induction l with
  | nil => intro j hj; simp at hj
  | cons x xs ih =>
      intro j hj
      have hstep : nsStep FVal.nan x = FVal.nan := by cases x <;> rfl
      cases j with
      | zero => simp [nsGo, hstep]
      | succ k =>
          simp only [nsGo, hstep, List.get?]
          exact ih k (by simpa using Nat.lt_of_succ_lt_succ hj)

/-- A NaN input sample makes the suppressor loop write NaN at its own index
and at every later index. -/
lemma nsGo_nan_from (l : List FVal) :
    ∀ (prev : FVal) (i j : ℕ), l.get? i = some FVal.nan → i ≤ j → j < l.length →
      (nsGo prev l).get? j = some FVal.nan := by
  induction l with
  | nil => intro prev i j hi _ _; simp at hi
  | cons x xs ih =>
      intro prev i j hi hij hj
      cases i with
      | zero =>
          simp only [List.get?, Option.some_inj] at hi
          subst hi
          have hstep : nsStep prev FVal.nan = FVal.nan := by
            cases prev <;> rfl
          cases j with
          | zero => simp [nsGo, hstep]
          | succ k =>
              simp only [nsGo, hstep, List.get?]
              exact nsGo_nan_prev xs k (by simpa using Nat.lt_of_succ_lt_succ hj)
      | succ i0 =>
          cases j with
          | zero => omega
          | succ k =>
              simp only [nsGo, List.get?] at hi hj ⊢
              exact ih (nsStep prev x) i0 k hi (by omega) (by simpa using Nat.lt_of_succ_lt_succ hj)

/-- The concealer fade loop keeps a NaN sample NaN (NaN propagates through
the multiplication). -/
lemma plcGo_nan (l : List FVal) :
    ∀ (n : ℚ) (i j : ℕ), l.get? j = some FVal.nan →
      (plcGo n i l).get? j = some FVal.nan := by
  induction l with
  | nil => intro n i j hj; simp at hj
  | cons x xs ih =>
      intro n i j hj
      cases j with
      | zero =>
          simp only [List.get?, Option.some_inj] at hj
          subst hj
          rfl
      | succ k =>
          simp only [plcGo, List.get?] at hj ⊢
          exact ih n (i + 1) k hj

/-- The suppressor writes index `i + 1` as the recurrence step applied to its
own output at index `i` and the input at index `i + 1`. -/
lemma ns_process_get?_succ (b : List FVal) (i : ℕ) (y x : FVal)
    (hy : (NoiseSuppressor.process b).get? i = some y)
    (hx : b.get? (i + 1) = some x) :
    (NoiseSuppressor.process b).get? (i + 1) = some (nsStep y x) := by
  cases b with
  | nil => simp [NoiseSuppressor.process] at hy
  | cons b0 bs =>
      cases i with
      | zero =>
          simp only [NoiseSuppressor.process, List.get?, Option.some_inj] at hy hx ⊢
          cases bs with
          | nil => simp at hx
          | cons w ws =>
              simp only [List.get?, Option.some_inj] at hx
              simp only [nsGo, List.get?]
              rw [← hy, ← hx]
      | succ j =>
          simp only [NoiseSuppressor.process, List.get?] at hy hx ⊢
          exact nsGo_get?_succ bs b0 j y x hy hx

/- ------------------------------------------------------------------
   Claim theorems
   ------------------------------------------------------------------ -/

/-- C3: in every state of the stability controller reachable from the initial
Normal state by `forceDegradation` / `restorePerformance` calls, the
concealment-active flag holds exactly when the mode is Degraded, and the
active precision is FP16 in Degraded mode and FP32 in Normal mode. -/
theorem stability_concealment_precision_invariant (s : LockState)
    (h : ReachableLockState s) :
    (s.isPLCActive = true ↔ s.isDegradationActive = true) ∧
    s.currentRVCPrecision =
      (if s.isDegradationActive then RVCPrecision.FP16 else RVCPrecision.FP32) := by
  induction h with
  | init => simp [initLockState]
  | degrade _ ih =>
      rw [LockManager.forceDegradation]
      split
      · rename_i hd
        simpa [hd] using ih
      · simp
  | restore _ ih =>
      rw [LockManager.restorePerformance]
      split
      · rename_i hd
        simp only [Bool.not_eq_true'] at hd
        simpa [hd] using ih
      · simp

/-- Witness for C3: the invariant instantiated at the initial state. -/
theorem stability_concealment_precision_invariant_witness :
    (initLockState.isPLCActive = true ↔ initLockState.isDegradationActive = true) ∧
    initLockState.currentRVCPrecision =
      (if initLockState.isDegradationActive then RVCPrecision.FP16 else RVCPrecision.FP32) :=
  stability_concealment_precision_invariant initLockState ReachableLockState.init

/-- C9: `forceDegradation` is idempotent on every reachable controller state:
a second consecutive call returns exactly the state the first call produced. -/
theorem forceDegradation_idempotent (s : LockState) (h : ReachableLockState s) :
    LockManager.forceDegradation (LockManager.forceDegradation s) =
      LockManager.forceDegradation s := by
  by_cases hd : s.isDegradationActive <;>
    simp [LockManager.forceDegradation, hd]

/-- Witness for C9: idempotence at the reachable state produced by one
degradation from the initial state. -/
theorem forceDegradation_idempotent_witness :
    LockManager.forceDegradation
        (LockManager.forceDegradation (LockManager.forceDegradation initLockState)) =
      LockManager.forceDegradation (LockManager.forceDegradation initLockState) :=
  forceDegradation_idempotent (LockManager.forceDegradation initLockState)
    (ReachableLockState.degrade ReachableLockState.init)

/-- C4: every sample the compressor/limiter stage writes is a plain value of
magnitude at most 0.99, and the stage is a pure per-sample function: the
output sample at an index depends only on the input sample at that index. -/
theorem compressor_clip_bound_and_pure :
    (∀ (b : List FVal) (i : ℕ) (x : FVal),
        (MultibandCompressor.process b).get? i = some x →
        ∃ q : ℚ, x = .val q ∧ |q| ≤ 99 / 100) ∧
    (∀ (b₁ b₂ : List FVal) (i : ℕ), b₁.get? i = b₂.get? i →
        (MultibandCompressor.process b₁).get? i = (MultibandCompressor.process b₂).get? i) := by
  constructor
  · intro b i x hx
    rw [MultibandCompressor.process, List.get?_map] at hx
    cases hb : b.get? i with
    | none => rw [hb] at hx; simp at hx
    | some y =>
        rw [hb] at hx
        simp only [Option.map_some', Option.some_inj] at hx
        obtain ⟨q, hq, hqb⟩ := clampSample_bound y
        exact ⟨q, by rw [← hx, hq], hqb⟩
  · intro b₁ b₂ i h
    rw [MultibandCompressor.process, MultibandCompressor.process,
      List.get?_map, List.get?_map, h]

/-- Witness for C4: the clip bound at input sample 2 (clamped to 0.99) and
per-sample purity across two buffers agreeing at index 0. -/
theorem compressor_clip_bound_and_pure_witness :
    (∃ q : ℚ, FVal.val compLimit = .val q ∧ |q| ≤ 99 / 100) ∧
    (MultibandCompressor.process [FVal.val 2, FVal.val 0]).get? 0 =
      (MultibandCompressor.process [FVal.val 2, FVal.val 7]).get? 0 :=
  ⟨compressor_clip_bound_and_pure.1 [FVal.val 2] 0 (FVal.val compLimit) (by decide),
   compressor_clip_bound_and_pure.2 [FVal.val 2, FVal.val 0] [FVal.val 2, FVal.val 7] 0 rfl⟩

/-- C10: the compressor/limiter stage is idempotent: applying it twice yields
the same buffer as applying it once. -/
theorem compressor_idempotent (b : List FVal) :
    MultibandCompressor.process (MultibandCompressor.process b) =
      MultibandCompressor.process b := by
  induction b with
  | nil => rfl
  | cons x xs ih =>
      simp only [MultibandCompressor.process, List.map_cons] at ih ⊢
      rw [clampSample_idem, ih]

/-- C8: when no model is loaded, `runInference` is a no-op for every buffer
and every pair of backend transforms: no backend runs and the buffer is
returned exactly as it was. -/
theorem runInference_no_model_noop (tfliteRun onnxRun : List FVal → List FVal)
    (s : EngineState) (buffer : List FVal) (h : s.isModelLoaded = false) :
    runInference tfliteRun onnxRun s buffer = buffer := by
  rw [runInference]
  simp [h]

/-- Witness for C8: a freshly constructed engine state with buffer-clearing
backends still returns the buffer unchanged. -/
theorem runInference_no_model_noop_witness :
    runInference (fun _ => []) (fun _ => [])
      { isModelLoaded := false, currentModelPath := "", currentEngine := none,
        currentDelegate := none } [FVal.val 1, FVal.nan] = [FVal.val 1, FVal.nan] :=
  runInference_no_model_noop (fun _ => []) (fun _ => [])
    { isModelLoaded := false, currentModelPath := "", currentEngine := none,
      currentDelegate := none } [FVal.val 1, FVal.nan] rfl

/-- C6: the noise-suppression stage computes the one-pole low-pass recurrence
`y[i] = 0.95·x[i] + 0.05·y[i-1]` in increasing index order: it preserves the
sample count, leaves index 0 (and any buffer of length at most 1) unchanged,
and each sample at index `i + 1` is determined by the input at `i + 1` and
the already-processed sample at `i`, so no index outside the buffer is read. -/
theorem noiseSuppressor_recurrence :
    (∀ b : List FVal, (NoiseSuppressor.process b).length = b.length) ∧
    (∀ b : List FVal, b.length ≤ 1 → NoiseSuppressor.process b = b) ∧
    (∀ b : List FVal, (NoiseSuppressor.process b).get? 0 = b.get? 0) ∧
    (∀ (b : List FVal) (i : ℕ) (y x : FVal),
        (NoiseSuppressor.process b).get? i = some y → b.get? (i + 1) = some x →
        (NoiseSuppressor.process b).get? (i + 1) =
          some (fAdd (fMul x (.val (95 / 100))) (fMul y (.val (5 / 100))))) := by
  refine ⟨?_, ?_, ?_, ?_⟩
  · intro b
    cases b with
    | nil => rfl
    | cons b0 bs => simp [NoiseSuppressor.process, nsGo_length]
  · intro b hb
    cases b with
    | nil => rfl
    | cons b0 bs =>
        cases bs with
        | nil => rfl
        | cons w ws => simp at hb
  · intro b
    cases b with
    | nil => rfl
    | cons b0 bs => rfl
  · intro b i y x hy hx
    rw [← nsAlpha_eq, ← nsBeta_eq]
    exact ns_process_get?_succ b i y x hy hx

/-- Witness for C6: a singleton buffer passes through unchanged, and on the
buffer `[1, 2]` the sample at index 1 is the recurrence step applied to the
output sample 1 at index 0 and the input sample 2. -/
theorem noiseSuppressor_recurrence_witness :
    NoiseSuppressor.process [FVal.val 1] = [FVal.val 1] ∧
    (NoiseSuppressor.process [FVal.val 1, FVal.val 2]).get? 1 =
      some (fAdd (fMul (FVal.val 2) (.val (95 / 100))) (fMul (FVal.val 1) (.val (5 / 100)))) :=
  ⟨noiseSuppressor_recurrence.2.1 [FVal.val 1] (by decide),
   noiseSuppressor_recurrence.2.2.2 [FVal.val 1, FVal.val 2] 0 (FVal.val 1) (FVal.val 2)
     rfl rfl⟩

/-- C5: post-processing branches exclusively on the concealment-active flag
read from the stability state: when it is set the output is exactly the
concealer's output (the compressor/limiter is never applied), otherwise the
output is exactly the compressor's output, and a deactivated concealer leaves
any buffer unmodified. -/
theorem postProcessing_branch_exclusive (stability : LockState) (plcState : Bool)
    (b : List FVal) :
    (FXGraph.applyPostProcessing true stability.isPLCActive plcState b).2 =
      (if stability.isPLCActive then PacketLossConcealer.process true b
       else MultibandCompressor.process b) ∧
    (FXGraph.applyPostProcessing true stability.isPLCActive plcState b).1 =
      stability.isPLCActive ∧
    PacketLossConcealer.process false b = b := by
  by_cases h : stability.isPLCActive <;>
    simp [FXGraph.applyPostProcessing, PacketLossConcealer.process, h]

/-- Counterexample for C7: the compressor/limiter stage does not leave a
NaN-containing buffer unmodified — it clamps the NaN sample. -/
theorem dsp_stage_nan_passthrough_counterexample :
    MultibandCompressor.process [FVal.nan] ≠ [FVal.nan] := by
  rw [MultibandCompressor.process]
  simp [clampSample_nan]

/-- C7 (amended): no DSP stage has a failure path, but a NaN-containing
buffer is not passed through unmodified: every stage applies its normal
per-sample arithmetic to the invalid samples — the echo gate keeps NaN
samples in place, the compressor/limiter clamps each NaN sample to 0.99,
the noise suppressor propagates NaN to its own index and every later index,
and the active concealer keeps NaN samples NaN. -/
theorem dsp_stages_nan_no_passthrough :
    (∀ (b : List FVal) (i : ℕ), b.get? i = some FVal.nan →
        (AcousticEchoCanceller.process b).get? i = some FVal.nan) ∧
    (∀ (b : List FVal) (i : ℕ), b.get? i = some FVal.nan →
        (MultibandCompressor.process b).get? i = some (FVal.val (99 / 100))) ∧
    (∀ (b : List FVal) (i j : ℕ), b.get? i = some FVal.nan → i ≤ j → j < b.length →
        (NoiseSuppressor.process b).get? j = some FVal.nan) ∧
    (∀ (b : List FVal) (i : ℕ), b.get? i = some FVal.nan →
        (PacketLossConcealer.process true b).get? i = some FVal.nan) := by
  refine ⟨?_, ?_, ?_, ?_⟩
  · intro b i h
    rw [AcousticEchoCanceller.process, List.get?_map, h]
    rfl
  · intro b i h
    rw [MultibandCompressor.process, List.get?_map, h]
    simp [clampSample_nan, compLimit_eq]
  · intro b i j hi hij hj
    cases b with
    | nil => simp at hi
    | cons b0 bs =>
        cases i with
        | zero =>
            simp only [List.get?, Option.some_inj] at hi
            subst hi
            cases j with
            | zero => rfl
            | succ k =>
                simp only [NoiseSuppressor.process, List.get?]
                exact nsGo_nan_prev bs k
                  (by simpa using Nat.lt_of_succ_lt_succ hj)
        | succ i0 =>
            cases j with
            | zero => omega
            | succ k =>
                simp only [List.get?] at hi
                simp only [NoiseSuppressor.process, List.get?]
                exact nsGo_nan_from bs b0 i0 k hi (by omega)
                  (by simpa using Nat.lt_of_succ_lt_succ hj)
  · intro b i h
    exact plcGo_nan b ((b.length : ℚ)) 0 i h

/-- Witness for C7 (amended): the four per-stage facts at concrete
NaN-containing buffers. -/
theorem dsp_stages_nan_no_passthrough_witness :
    (AcousticEchoCanceller.process [FVal.nan]).get? 0 = some FVal.nan ∧
    (MultibandCompressor.process [FVal.nan]).get? 0 = some (FVal.val (99 / 100)) ∧
    (NoiseSuppressor.process [FVal.nan, FVal.val 1]).get? 1 = some FVal.nan ∧
    (PacketLossConcealer.process true [FVal.nan]).get? 0 = some FVal.nan :=
  ⟨dsp_stages_nan_no_passthrough.1 [FVal.nan] 0 rfl,
   dsp_stages_nan_no_passthrough.2.1 [FVal.nan] 0 rfl,
   dsp_stages_nan_no_passthrough.2.2.1 [FVal.nan, FVal.val 1] 0 1 rfl (by decide) (by decide),
   dsp_stages_nan_no_passthrough.2.2.2 [FVal.nan] 0 rfl⟩

/-- Counterexample for C1: at the benchmark triple DSP = 15 ms, GPU = 15 ms,
CPU = 25 ms (a DSP/GPU tie within the ceiling), the code selects GPU while
the claimed rule (lowest latency within the ceiling, ties to DSP first)
selects DSP. -/
theorem delegate_selection_tie_counterexample :
    selectDelegate 15 15 25 = DelegateType.GPU ∧
    selectDelegateSpec 15 15 25 = DelegateType.DSP := by
  constructor <;> decide

/-- C1 (amended): for every triple of benchmarked latencies the code selects
the delegate with the lowest measured latency within the 20 ms ceiling, with
ties broken in the reverse priority order (CPU over GPU over DSP: a delegate
is selected only when strictly faster than every other delegate within the
ceiling), and selects CPU whenever no delegate meets the ceiling. -/
theorem selectDelegate_lowest_tie_to_last (dspTime gpuTime cpuTime : ℚ) :
    selectDelegate dspTime gpuTime cpuTime =
      selectDelegateTieToLast dspTime gpuTime cpuTime := by
  have hA : (dspTime < gpuTime ∧ dspTime < cpuTime ∧ dspTime ≤ 20) ↔
      (dspTime ≤ 20 ∧ (gpuTime ≤ 20 → dspTime < gpuTime) ∧
        (cpuTime ≤ 20 → dspTime < cpuTime)) := by
    constructor
    · rintro ⟨x1, x2, x3⟩
      exact ⟨x3, fun _ => x1, fun _ => x2⟩
    · rintro ⟨x1, x2, x3⟩
      refine ⟨?_, ?_, x1⟩
      · by_cases hg : gpuTime ≤ 20
        · exact x2 hg
        · linarith [not_le.mp hg]
      · by_cases hc : cpuTime ≤ 20
        · exact x3 hc
        · linarith [not_le.mp hc]
  have hB : (gpuTime < cpuTime ∧ gpuTime ≤ 20) ↔
      (gpuTime ≤ 20 ∧ (cpuTime ≤ 20 → gpuTime < cpuTime)) := by
    constructor
    · rintro ⟨x1, x2⟩
      exact ⟨x2, fun _ => x1⟩
    · rintro ⟨x1, x2⟩
      refine ⟨?_, x1⟩
      by_cases hc : cpuTime ≤ 20
      · exact x2 hc
      · linarith [not_le.mp hc]
  rw [selectDelegate, selectDelegateTieToLast]
  simp only [hA, hB]

/-- Counterexample for C2: from a state with a model loaded, `loadModel` on
the unrecognized suffix "voice.xyz" returns failure but does not leave the
engine state unchanged. -/
theorem loadModel_unknown_suffix_counterexample :
    (loadModel "voice.xyz" loadedEngineState).1 = false ∧
    (loadModel "voice.xyz" loadedEngineState).2 ≠ loadedEngineState := by
  constructor <;> decide

/-- C2 (amended): from every state with a model loaded, `loadModel` on a path
with an unrecognized suffix returns failure, but first unloads the previous
model and overwrites the stored path and delegate: afterwards no model is
loaded, the stored path is the new path, the delegate is the benchmark
winner, and only the engine field keeps its old value. -/
theorem loadModel_unknown_suffix_unloads (s : EngineState) (p : String)
    (hl : s.isModelLoaded = true) (hu : determineModelType p = ModelType.UNKNOWN) :
    loadModel p s =
      (false,
        { isModelLoaded := false
          currentModelPath := p
          currentEngine := s.currentEngine
          currentDelegate := some benchmarkAllDelegates }) := by
  simp only [loadModel, unloadModel, hl, hu, if_true]

/-- Witness for C2 (amended): the concrete loaded state and the path
"voice.xyz". -/
theorem loadModel_unknown_suffix_unloads_witness :
    loadModel "voice.xyz" loadedEngineState =
      (false,
        { isModelLoaded := false
          currentModelPath := "voice.xyz"
          currentEngine := some EngineType.TFLITE
          currentDelegate := some benchmarkAllDelegates }) :=
  loadModel_unknown_suffix_unloads loadedEngineState "voice.xyz" rfl (by decide)

end Rvc
